import Mathlib

/-!
Shallow embedding of the MBus bit-banged protocol state machine from
src/libmbus.c (the newer variant; src/bitbang.c is the older variant and
is not referenced by the claims).  The C file's static globals become the
fields of `St`; the caller-owned `struct MBus_t` splits into the immutable
scalar configuration `Config` and the mutable client memory `Mem`
(receive buffer lengths, addresses, and byte arrays).  Each C function
becomes a pure function `Config → St → inputs → St × List Ev`, where `Ev`
records the observable effects in order: `set_gpio_val` calls and the
three client callbacks.  Machine integers are modelled as `Nat` (unsigned,
with `% 2^w` where the C type could wrap) and `Int` (for C `int` fields
such as lengths and byte indices).
-/

namespace LibMBus

/-- FSM states of `enum MBus_state_t` in src/libmbus.c, in declaration order. -/
inductive MState where
  | IDLE
  | PREARB
  | ARBITRATION
  | PRIO_DRIVE
  | PRIO_LATCH
  | ARB_RESERVED_DRIVE
  | ARB_RESERVED_LATCH
  | DRIVE_SHORT_ADDR
  | LATCH_SHORT_ADDR
  | DRIVE_LONG_ADDR
  | LATCH_LONG_ADDR
  | DRIVE_DATA
  | LATCH_DATA
  | REQUEST_INTERRUPT
  | REQUESTING_INTERRUPT
  | REQUESTED_INTERRUPT
  | PRE_BEGIN_CONTROL
  | BEGIN_CONTROL
  | DRIVE_CB0
  | LATCH_CB0
  | DRIVE_CB1
  | LATCH_CB1
  | DRIVE_IDLE
  | BEGIN_IDLE
  | ERROR
deriving DecidableEq, Repr

/-- Numeric value of each state, as assigned by the C enum (used by the
ordered comparisons `state < REQUEST_INTERRUPT` and `state <= BEGIN_CONTROL`
in `MBus_DIN_int_handler`). -/
def MState.code : MState → Nat
  | .IDLE => 0
  | .PREARB => 1
  | .ARBITRATION => 2
  | .PRIO_DRIVE => 3
  | .PRIO_LATCH => 4
  | .ARB_RESERVED_DRIVE => 5
  | .ARB_RESERVED_LATCH => 6
  | .DRIVE_SHORT_ADDR => 7
  | .LATCH_SHORT_ADDR => 8
  | .DRIVE_LONG_ADDR => 9
  | .LATCH_LONG_ADDR => 10
  | .DRIVE_DATA => 11
  | .LATCH_DATA => 12
  | .REQUEST_INTERRUPT => 13
  | .REQUESTING_INTERRUPT => 14
  | .REQUESTED_INTERRUPT => 15
  | .PRE_BEGIN_CONTROL => 16
  | .BEGIN_CONTROL => 17
  | .DRIVE_CB0 => 18
  | .LATCH_CB0 => 19
  | .DRIVE_CB1 => 20
  | .LATCH_CB1 => 21
  | .DRIVE_IDLE => 22
  | .BEGIN_IDLE => 23
  | .ERROR => 24

/-- Logical roles, `enum MBus_logical_t`. -/
inductive MLogical where
  | FORWARD
  | TRANSMIT
  | RECEIVE
  | RECEIVE_BROADCAST
  | INTERRUPTER
deriving DecidableEq, Repr

/-- Error kinds, `enum MBus_error_t` from src/libmbus.h. -/
inductive MErr where
  | NO_ERROR
  | BUS_BUSY
  | CLOCK_SYNCH_ERROR
  | DATA_SYNCH_ERROR
  | RECV_OVERFLOW
  | INTERRUPTED
deriving DecidableEq, Repr

/-- Immutable scalar part of `struct MBus_t`.  `short_pfx` models the
`uint8_t` field `short_prefix` and `full_pfx` the `uint32_t` field
`full_prefix` of the C struct (renamed; values are the same numbers the C
fields hold). -/
structure Config where
  CLKOUT_gpio : Nat
  DOUT_gpio : Nat
  participate_in_enumeration : Bool
  broadcast_channels : Nat
  promiscuous_mode : Nat
  short_pfx : Nat
  full_pfx : Nat
deriving DecidableEq, Repr

/-- Mutable client memory reachable from `struct MBus_t`: the three
`RX_BUFFER_COUNT`-element arrays plus the byte arrays the buffer pointers
point at.  `recv_buffers` holds the pointed-to byte contents per slot
(`NULL` buffer pointers are not modelled; the claims never use them). -/
structure Mem where
  recv_buffer_lengths : List Int
  recv_addrs : List Nat
  recv_buffers : List (List Nat)
deriving DecidableEq, Repr

/-- Value of `mbus->recv_buffer_lengths[i]`. -/
def Mem.lenAt (m : Mem) (i : Nat) : Int := m.recv_buffer_lengths.getD i 0

/-- Value of byte `k` of the buffer in slot `j` (`mbus->recv_buffers[j][k]`). -/
def Mem.byteAt (m : Mem) (j k : Nat) : Nat := (m.recv_buffers.getD j []).getD k 0

/-- First index `i` (counting from `base`) whose length entry is positive:
the scan loop `for (rx_buf_idx=0; rx_buf_idx < RX_BUFFER_COUNT; ...)`. -/
def firstAvail : List Int → Nat → Option Nat
  | [], _ => none
  | l :: rest, base => if l > 0 then some base else firstAvail rest (base + 1)

/-- Result of the buffer scan loop over the whole length array. -/
def Mem.findSlot (m : Mem) : Option Nat := firstAvail m.recv_buffer_lengths 0

/-- The pointer `rx_buf_len`: either the static sentinel `&rx_buf_zero` or
`&mbus->recv_buffer_lengths[i]`. -/
inductive RxLenPtr where
  | sentinel
  | slot (i : Nat)
deriving DecidableEq, Repr

/-- All static globals of src/libmbus.c plus the client memory.
`rx_buf` models the `rx_buf` pointer as the claimed slot index (`none` is
`NULL`).  `ack` is the `uint8_t` flag that only ever holds a sampled DIN
level.  `tx_buf` holds the bytes the client's transmit pointer points at
(`NULL` is the empty list; the code only ever reads `tx_buf[tx_byte_idx]`). -/
structure St where
  state : MState
  logical : MLogical
  last_clkin : Bool
  last_din : Bool
  last_dout : Bool
  interrupt_count : Nat
  error : MErr
  tx_buf : List Nat
  tx_length : Int
  tx_priority : Nat
  tx_bit_idx : Nat
  tx_byte_idx : Int
  rx_addr : Nat
  rx_bit_idx : Nat
  rx_byte_idx : Int
  rx_buf_zero : Int
  rx_buf_idx : Nat
  rx_buf_len : RxLenPtr
  rx_buf : Option Nat
  ack : Bool
  mem : Mem
deriving DecidableEq, Repr

/-- Read through the `rx_buf_len` pointer (`*rx_buf_len`). -/
def St.readRxLen (s : St) : Int :=
  match s.rx_buf_len with
  | .sentinel => s.rx_buf_zero
  | .slot i => s.mem.lenAt i

/-- Write through the `rx_buf_len` pointer (`*rx_buf_len = v`). -/
def St.writeRxLen (s : St) (v : Int) : St :=
  match s.rx_buf_len with
  | .sentinel => { s with rx_buf_zero := v }
  | .slot i =>
      { s with mem :=
          { s.mem with recv_buffer_lengths := s.mem.recv_buffer_lengths.set i v } }

/-- Observable effects, in program order: `set_gpio_val` calls and the
three client callbacks. -/
inductive Ev where
  | gpio (idx : Nat) (val : Bool)
  | send_done (n : Int) (e : MErr)
  | recv (i : Nat)
  | error (e : MErr)
deriving DecidableEq, Repr

/-- True for the three client callbacks, false for `set_gpio_val`. -/
def Ev.isCallback : Ev → Bool
  | .gpio _ _ => false
  | _ => true

/-- Callback events of an effect list, in order. -/
def callbacks (l : List Ev) : List Ev := l.filter Ev.isCallback

/-- Values driven onto gpio `g` by an effect list, in order. -/
def gpioDrives (g : Nat) (l : List Ev) : List Bool :=
  l.filterMap fun e =>
    match e with
    | .gpio i v => if i = g then some v else none
    | _ => none

/-- One address-shift step: `rx_addr <<= 1; rx_addr |= last_din;` on a
`uint32_t`. -/
def nextAddr (a : Nat) (din : Bool) : Nat :=
  ((a <<< 1) ||| (if din then 1 else 0)) % 2 ^ 32

/-- States during which the CLKIN handler stretches the clock (drives
CLKOUT high) instead of forwarding it. -/
def stretching : MState → Bool
  | .REQUEST_INTERRUPT | .REQUESTING_INTERRUPT | .REQUESTED_INTERRUPT => true
  | _ => false

/-- Buffer-claim block shared by the ends of the short- and long-address
paths: scan for the first slot with positive length, latching
`rx_buf_idx`, `rx_buf_len`, `rx_buf` on a hit and leaving the loop
counter at `RX_BUFFER_COUNT` (and `rx_buf`, `rx_buf_len` stale) on a
miss.  The overflow guard is then `if (rx_buf == NULL)` on the possibly
stale pointer — not "the scan failed": only a `NULL` `rx_buf` goes to
`REQUEST_INTERRUPT` with `MBUS_ERR_RECV_OVERFLOW`; otherwise the code
writes `recv_addrs[rx_buf_idx]` and resets `rx_bit_idx`, and when the
scan failed but a stale claimed `rx_buf` survived (reachable via the
`BEGIN_IDLE → PREARB` back-to-back path, which skips the IDLE reset) that
write is `recv_addrs[RX_BUFFER_COUNT]`, out of bounds — undefined
behaviour in C, modelled here by `List.set` out of range, a no-op. -/
def claimBuf (s : St) (stored : Nat) : St :=
  let s1 :=
    match s.mem.findSlot with
    | some i => { s with rx_buf_idx := i, rx_buf_len := .slot i, rx_buf := some i }
    | none => { s with rx_buf_idx := s.mem.recv_buffer_lengths.length }
  if s1.rx_buf = none then
    { s1 with state := .REQUEST_INTERRUPT, error := .RECV_OVERFLOW }
  else
    { s1 with
        rx_bit_idx := 0
        mem := { s1.mem with recv_addrs := s1.mem.recv_addrs.set s1.rx_buf_idx stored } }

/-- End-of-address block (entered with the shifted-in address already in
`s`): resolve `RECEIVE_BROADCAST` against the subscribed channel bit,
then claim a buffer if the node is now a receiver.  `stored` is the value
the claim writes into `recv_addrs`. -/
def endOfAddr (cfg : Config) (s : St) (stored : Nat) : St :=
  let lg :=
    if s.logical = .RECEIVE_BROADCAST then
      if cfg.broadcast_channels.testBit (s.rx_addr % 16) then MLogical.RECEIVE
      else .FORWARD
    else s.logical
  let s1 := { s with state := MState.DRIVE_DATA, logical := lg }
  if lg = .RECEIVE then claimBuf s1 stored else s1

/-- The `switch (state)` body of `MBus_CLKIN_int_handler`, entered after
`last_clkin` has been updated and `interrupt_count` reset. -/
def clkCase (cfg : Config) (s : St) : St × List Ev :=
  match s.state with
  | .IDLE =>
      ({ s with
          state := .PREARB
          tx_bit_idx := 0
          tx_byte_idx := 0
          rx_addr := 0
          rx_bit_idx := 0
          rx_byte_idx := 0
          rx_buf_len := .sentinel
          rx_buf := none
          ack := false }, [])
  | .PREARB => ({ s with state := .ARBITRATION }, [])
  | .ARBITRATION =>
      ({ s with
          state := .PRIO_DRIVE
          logical :=
            if s.last_din = false then .FORWARD
            else if s.last_dout = false then .TRANSMIT
            else .FORWARD }, [])
  | .PRIO_DRIVE =>
      if s.tx_priority ≠ 0 then
        ({ s with state := .PRIO_LATCH }, [.gpio cfg.DOUT_gpio true])
      else ({ s with state := .PRIO_LATCH }, [])
  | .PRIO_LATCH =>
      let lg :=
        if s.logical = .TRANSMIT then
          if s.tx_priority ≠ 0 then s.logical
          else if s.last_din then MLogical.FORWARD else s.logical
        else
          if s.tx_priority ≠ 0 then
            if s.last_din then s.logical else MLogical.TRANSMIT
          else s.logical
      ({ s with
          state := if lg = .TRANSMIT then .DRIVE_DATA else .ARB_RESERVED_DRIVE
          logical := lg }, [])
  | .ARB_RESERVED_DRIVE => ({ s with state := .ARB_RESERVED_LATCH }, [])
  | .ARB_RESERVED_LATCH => ({ s with state := .DRIVE_SHORT_ADDR }, [])
  | .DRIVE_SHORT_ADDR => ({ s with state := .LATCH_SHORT_ADDR }, [])
  | .LATCH_SHORT_ADDR =>
      let a := nextAddr s.rx_addr s.last_din
      let bi := (s.rx_bit_idx + 1) % 2 ^ 8
      let s1 := { s with state := MState.DRIVE_SHORT_ADDR, rx_addr := a, rx_bit_idx := bi }
      if bi = 4 then
        (if a = 0xf then { s1 with state := .DRIVE_LONG_ADDR }
         else if a = cfg.short_pfx then { s1 with logical := .RECEIVE }
         else if a = 0 then { s1 with logical := .RECEIVE_BROADCAST }
         else { s1 with logical := .FORWARD }, [])
      else if bi = 8 then
        (endOfAddr cfg s1 ((a <<< 24) % 2 ^ 32), [])
      else (s1, [])
  | .DRIVE_LONG_ADDR => ({ s with state := .LATCH_LONG_ADDR }, [])
  | .LATCH_LONG_ADDR =>
      let a := nextAddr s.rx_addr s.last_din
      let bi := (s.rx_bit_idx + 1) % 2 ^ 8
      let s1 := { s with state := MState.DRIVE_LONG_ADDR, rx_addr := a, rx_bit_idx := bi }
      if bi = 28 then
        (if a % 2 ^ 24 = cfg.full_pfx then { s1 with logical := .RECEIVE }
         else if a % 2 ^ 24 = 0 then { s1 with logical := .RECEIVE_BROADCAST }
         else { s1 with logical := .FORWARD }, [])
      else if bi = 32 then
        (endOfAddr cfg s1 a, [])
      else (s1, [])
  | .DRIVE_DATA =>
      if s.logical = .TRANSMIT then
        let byte := s.tx_buf.getD s.tx_byte_idx.toNat 0
        let bit := byte.testBit s.tx_bit_idx
        let tb := (s.tx_bit_idx + 1) % 2 ^ 8
        let s1 := { s with state := MState.LATCH_DATA }
        (if tb = 8 then { s1 with tx_bit_idx := 0, tx_byte_idx := s.tx_byte_idx + 1 }
         else { s1 with tx_bit_idx := tb }, [.gpio cfg.DOUT_gpio bit])
      else ({ s with state := .LATCH_DATA }, [])
  | .LATCH_DATA =>
      let s0 := { s with state := MState.DRIVE_DATA }
      if s.logical = .TRANSMIT then
        if s.tx_byte_idx = s.tx_length then
          ({ s0 with state := .REQUEST_INTERRUPT, error := .NO_ERROR }, [])
        else (s0, [])
      else if s.logical = .RECEIVE then
        if s.rx_byte_idx > s.readRxLen then
          ({ s0 with state := .REQUEST_INTERRUPT, logical := .TRANSMIT, error := .RECV_OVERFLOW }, [])
        else
          match s.rx_buf with
          | some j =>
              let k := s.rx_byte_idx.toNat
              let v := (s.mem.byteAt j k |||
                         ((if s.last_din then 1 else 0) <<< s.rx_bit_idx)) % 2 ^ 8
              let buf := (s.mem.recv_buffers.getD j []).set k v
              let s1 := { s0 with
                mem := { s.mem with recv_buffers := s.mem.recv_buffers.set j buf } }
              let rb := (s.rx_bit_idx + 1) % 2 ^ 8
              (if rb = 8 then
                 { s1 with rx_bit_idx := 0, rx_byte_idx := s.rx_byte_idx + 1 }
               else { s1 with rx_bit_idx := rb }, [])
          | none => (s0, [])
      else (s0, [])
  | .REQUEST_INTERRUPT =>
      (if s.last_clkin = false then { s with state := .REQUESTING_INTERRUPT } else s, [])
  | .REQUESTING_INTERRUPT =>
      (if s.last_clkin = false then { s with state := .REQUESTED_INTERRUPT } else s, [])
  | .REQUESTED_INTERRUPT => (s, [])
  | .PRE_BEGIN_CONTROL => ({ s with state := .DRIVE_CB0 }, [])
  | .BEGIN_CONTROL => ({ s with state := .DRIVE_CB0 }, [])
  | .DRIVE_CB0 =>
      if s.logical = .INTERRUPTER then
        if s.error = .NO_ERROR then
          ({ s with state := .LATCH_CB0 }, [.gpio cfg.DOUT_gpio true])
        else ({ s with state := .LATCH_CB0 }, [.gpio cfg.DOUT_gpio false])
      else ({ s with state := .LATCH_CB0 }, [])
  | .LATCH_CB0 =>
      let s1 := { s with state := MState.DRIVE_CB1, ack := s.last_din }
      if s.logical = .RECEIVE then ({ s1 with logical := .TRANSMIT }, [])
      else if s.error = .NO_ERROR then ({ s1 with logical := .FORWARD }, [])
      else (s1, [])
  | .DRIVE_CB1 =>
      if s.logical = .INTERRUPTER then
        if s.error = .RECV_OVERFLOW then
          ({ s with state := .LATCH_CB1 }, [.gpio cfg.DOUT_gpio true])
        else ({ s with state := .LATCH_CB1 }, [])
      else if s.logical = .TRANSMIT then
        if s.ack then ({ s with state := .LATCH_CB1 }, [.gpio cfg.DOUT_gpio false])
        else ({ s with state := .LATCH_CB1 }, [])
      else ({ s with state := .LATCH_CB1 }, [])
  | .LATCH_CB1 =>
      let s1 := { s with state := MState.DRIVE_IDLE, logical := MLogical.FORWARD }
      (if s.tx_byte_idx > 0 then { s1 with ack := s.last_din } else s1, [])
  | .DRIVE_IDLE => ({ s with state := .BEGIN_IDLE }, [])
  | .BEGIN_IDLE =>
      (if s.last_din then { s with state := .IDLE } else { s with state := .PREARB }, [])
  | .ERROR => (s, [])

/-- Completion dispatch at the bottom of `MBus_CLKIN_int_handler`
(the `if (state == BEGIN_IDLE)` block). -/
def dispatch (s : St) : St × List Ev :=
  if s.state = .BEGIN_IDLE then
    if s.error ≠ .NO_ERROR then (s, [.error s.error])
    else if s.tx_byte_idx > 0 then (s, [.send_done s.tx_byte_idx s.error])
    else if s.rx_byte_idx > 0 then
      (s.writeRxLen (-s.rx_byte_idx), [.recv s.rx_buf_idx])
    else (s, [])
  else (s, [])

/-- `MBus_CLKIN_int_handler(int CLKIN_val)`.  Returns the new globals and
the ordered effects of the call. -/
def MBus_CLKIN_int_handler (cfg : Config) (s : St) (v : Bool) : St × List Ev :=
  if s.last_clkin = v then
    if s.state = .ERROR then (s, [])
    else ({ s with state := .ERROR, error := .CLOCK_SYNCH_ERROR }, [])
  else
    let s0 := { s with last_clkin := v, interrupt_count := 0 }
    let r := clkCase cfg s0
    let clkoutEv := Ev.gpio cfg.CLKOUT_gpio (if stretching r.1.state then true else v)
    let d := dispatch r.1
    (d.1, r.2 ++ [clkoutEv] ++ d.2)

/-- `MBus_DIN_int_handler(int DIN_val)`. -/
def MBus_DIN_int_handler (cfg : Config) (s : St) (v : Bool) : St × List Ev :=
  if s.last_din = v then
    if s.state = .ERROR then (s, [])
    else ({ s with state := .ERROR, error := .DATA_SYNCH_ERROR }, [])
  else
    let s1 := { s with last_din := v }
    let s2 :=
      if v then { s1 with interrupt_count := (s1.interrupt_count + 1) % 2 ^ 32 } else s1
    let s3 :=
      if s2.interrupt_count ≥ 3 then
        { s2 with
            logical :=
              if s2.state = .REQUESTED_INTERRUPT then .INTERRUPTER else s2.logical
            state := .PRE_BEGIN_CONTROL }
      else s2
    let evs :=
      if s3.state.code < MState.REQUEST_INTERRUPT.code then
        if s3.logical ≠ .TRANSMIT then [Ev.gpio cfg.DOUT_gpio v] else []
      else if s3.state.code ≤ MState.BEGIN_CONTROL.code then [Ev.gpio cfg.DOUT_gpio v]
      else if s3.logical ≠ .TRANSMIT then [Ev.gpio cfg.DOUT_gpio v] else []
    (s3, evs)

/-- `MBus_send(uint8_t* buf, int length, uint8_t is_priority)`.  The three
transmit fields are latched unconditionally, before the busy check. -/
def MBus_send (cfg : Config) (s : St) (buf : List Nat) (length : Int)
    (is_priority : Nat) : St × List Ev :=
  let s1 := { s with tx_buf := buf, tx_length := length, tx_priority := is_priority % 2 ^ 8 }
  if s1.state = .IDLE then
    ({ s1 with logical := .TRANSMIT }, [.gpio cfg.DOUT_gpio false])
  else (s1, [.send_done 0 .BUS_BUSY])

/-- `MBus_init`: resets exactly the globals the C function assigns.
`rx_buf_zero` and `rx_buf_idx` are not touched (the C function does not
reset them), and the client memory is untouched. -/
def MBus_init (s : St) : St :=
  { s with
      state := .IDLE
      logical := .FORWARD
      last_clkin := true
      last_din := true
      last_dout := true
      interrupt_count := 0
      error := .NO_ERROR
      tx_buf := []
      tx_length := 0
      tx_priority := 0
      tx_bit_idx := 0
      tx_byte_idx := 0
      rx_addr := 0
      rx_bit_idx := 0
      rx_byte_idx := 0
      rx_buf_len := .sentinel
      rx_buf := none
      ack := false }

/-- State at program load (static initialisers), holding client memory
`m`.  `rx_buf_idx` is the only uninitialised static (`unsigned`); it is
modelled as 0 and no claim reads it before the code first assigns it. -/
def startSt (m : Mem) : St :=
  { state := .IDLE
    logical := .FORWARD
    last_clkin := true
    last_din := true
    last_dout := true
    interrupt_count := 0
    error := .NO_ERROR
    tx_buf := []
    tx_length := 0
    tx_priority := 0
    tx_bit_idx := 0
    tx_byte_idx := 0
    rx_addr := 0
    rx_bit_idx := 0
    rx_byte_idx := 0
    rx_buf_zero := 0
    rx_buf_idx := 0
    rx_buf_len := .sentinel
    rx_buf := none
    ack := false
    mem := m }

/-- External stimuli: a CLKIN edge, a DIN edge, or an `MBus_send` call. -/
inductive EvIn where
  | clk (v : Bool)
  | din (v : Bool)
  | send (buf : List Nat) (len : Int) (prio : Nat)
deriving DecidableEq, Repr

/-- Apply one stimulus. -/
def stepIn (cfg : Config) (s : St) : EvIn → St × List Ev
  | .clk v => MBus_CLKIN_int_handler cfg s v
  | .din v => MBus_DIN_int_handler cfg s v
  | .send b l p => MBus_send cfg s b l p

/-- Run a stimulus list, concatenating effects. -/
def run (cfg : Config) (s : St) : List EvIn → St × List Ev
  | [] => (s, [])
  | e :: es =>
      let r := stepIn cfg s e
      let r2 := run cfg r.1 es
      (r2.1, r.2 ++ r2.2)

/-! Stimulus traces for concrete transactions.  A node under test receives
raw CLKIN/DIN edges; each wire bit occupies a DRIVE (rising CLKIN) and a
LATCH (falling CLKIN) phase, and the address travels most-significant bit
first while payload bytes travel least-significant bit first (that is how
`LATCH_SHORT_ADDR`/`LATCH_LONG_ADDR` accumulate and how `LATCH_DATA`
stores). -/

/-- Most-significant-first bits of `n`, `w` wide. -/
def msbBits (n w : Nat) : List Bool := (List.range w).map fun k => n.testBit (w - 1 - k)

/-- Least-significant-first bits of one byte. -/
def lsbBits (b : Nat) : List Bool := (List.range 8).map fun k => b.testBit k

/-- Wire bits of a payload: bytes in order, LSB first within each byte. -/
def payloadBits (bytes : List Nat) : List Bool := (bytes.map lsbBits).flatten

/-- Drive a list of wire bits at a node sitting in `DRIVE_SHORT_ADDR` (or
later) with `last_clkin = false` and DIN currently at `cur`: each bit is
an optional DIN edge followed by a rising and a falling CLKIN edge. -/
def bitEvs : Bool → List Bool → List EvIn
  | _, [] => []
  | cur, b :: rest =>
      (if b = cur then [] else [EvIn.din b]) ++ [EvIn.clk true, EvIn.clk false] ++ bitEvs b rest

/-- DIN level after driving a bit list starting from level `cur`. -/
def lastLevel : Bool → List Bool → Bool
  | cur, [] => cur
  | _, b :: rest => lastLevel b rest

/-- Seven CLKIN edges taking a fresh node from IDLE through arbitration to
`DRIVE_SHORT_ADDR` (DIN untouched, so no arbitration contender). -/
def setupEvs : List EvIn :=
  [.clk false, .clk true, .clk false, .clk true, .clk false, .clk true, .clk false]

/-- Three rising DIN edges with no CLKIN edge in between (the
interrupt-request pattern), starting from DIN level `d`. -/
def irqEvs (d : Bool) : List EvIn :=
  if d then [.din false, .din true, .din false, .din true, .din false, .din true]
  else [.din true, .din false, .din true, .din false, .din true]

/-- Six CLKIN edges taking `PRE_BEGIN_CONTROL` (with `last_clkin = false`)
through the control-bit exchange into `BEGIN_IDLE`. -/
def ctrlEvs : List EvIn :=
  [.clk true, .clk false, .clk true, .clk false, .clk true, .clk false]

/-- Complete reception seen by a forwarding-ring node: arbitration it does
not contend, the given address bits, the payload, the sender's
interrupt-request pattern, and the control-bit exchange. -/
def rxTrace (addrBits : List Bool) (payload : List Nat) : List EvIn :=
  let bits := addrBits ++ payloadBits payload
  setupEvs ++ bitEvs true bits ++ irqEvs (lastLevel true bits) ++ ctrlEvs

/-- Alternating CLKIN edges, first edge at level `b`. -/
def clkAlt : Bool → Nat → List EvIn
  | _, 0 => []
  | b, n + 1 => EvIn.clk b :: clkAlt (!b) n

/-! Concrete configurations and memories used by the scenario runs. -/

/-- Unicast configuration: short prefix 3, long prefix 0xAABBCC, no
broadcast subscriptions. -/
def cfgA : Config :=
  { CLKOUT_gpio := 1, DOUT_gpio := 2, participate_in_enumeration := true,
    broadcast_channels := 0, promiscuous_mode := 0, short_pfx := 3,
    full_pfx := 0xAABBCC }

/-- Same node but with a short prefix whose low nibble is 3 and whose high
nibble is nonzero (0x13); per libmbus.h only the bottom four bits are
significant. -/
def cfgHi : Config := { cfgA with short_pfx := 0x13 }

/-- One one-byte buffer slot whose byte is pre-set to 0x0F, one disabled slot. -/
def memA : Mem :=
  { recv_buffer_lengths := [1, 0], recv_addrs := [0, 0], recv_buffers := [[0x0F], []] }

/-- Same shape with the first buffer zeroed. -/
def memZ : Mem :=
  { recv_buffer_lengths := [1, 0], recv_addrs := [0, 0], recv_buffers := [[0x00], []] }

/-- Two-byte first slot for the long-address reception. -/
def memL : Mem :=
  { recv_buffer_lengths := [2, 0], recv_addrs := [0, 0], recv_buffers := [[0, 0], []] }

/-- No slot available (all lengths non-positive). -/
def memOvf : Mem :=
  { recv_buffer_lengths := [0, 0], recv_addrs := [0, 0], recv_buffers := [[], []] }

/-- Short-address reception of one byte 0xA5 to prefix 3 (address byte on
the wire is 0x30 MSB-first: header nibble 3, channel nibble 0). -/
def traceRxShort : List EvIn := rxTrace (msbBits 0x30 8) [0xA5]

/-- Long-address reception: escape nibble 0xF, 24 prefix bits 0xAABBCC,
final nibble 0, one payload byte 0x55. -/
def traceRxLong : List EvIn :=
  rxTrace (msbBits 0xF 4 ++ msbBits 0xAABBCC 24 ++ msbBits 0 4) [0x55]

/-- Overflow scenario: address phase targets us (prefix 3), no slot is
available, so the node itself requests the interrupt; four CLKIN edges let
the request be registered, the DIN pattern answers it, and the control
exchange runs to `BEGIN_IDLE`. -/
def traceOvf : List EvIn :=
  setupEvs ++ bitEvs true (msbBits 0x30 8) ++ [.clk true, .clk false, .clk true, .clk false]
    ++ irqEvs false ++ ctrlEvs

/-- Non-priority transmit attempt with no competing sender: `MBus_send`
from IDLE, then 71 CLKIN edges with DIN left high. -/
def traceTx : List EvIn := EvIn.send [0xA5] 1 0 :: clkAlt false 71

/-- Node state after `traceTx` (stuck forwarding in the data phase). -/
def txStuckSt : St := (run cfgA (startSt memA) traceTx).1

/-- One further CLKIN edge from `txStuckSt` (the other half of its 2-cycle). -/
def txStuckSt2 : St := (MBus_CLKIN_int_handler cfgA txStuckSt true).1

/-- Validity of the `rx_buf_len` pointer: in the C code it always points at
an actual `int` (the sentinel or an array element); in the list model a
slot pointer is valid when its index is in range. -/
def St.rxPtrValid (s : St) : Bool :=
  match s.rx_buf_len with
  | .sentinel => true
  | .slot i => i < s.mem.recv_buffer_lengths.length

/-- Latched ERROR state over an otherwise fresh node. -/
def sErr : St := { startSt memA with state := .ERROR }

/-- Mid-transaction state (PREARB) with a previously latched transmit length. -/
def sPre : St := { startSt memA with state := .PREARB, tx_length := 5 }

/-- State about to latch the fourth short-address bit, having accumulated
bits 0,0,1 with DIN now high (so the nibble becomes 3). -/
def s4 : St :=
  { startSt memA with state := .LATCH_SHORT_ADDR, rx_bit_idx := 3, rx_addr := 1 }

/-- State about to latch the 32nd long-address bit of escape 0xF, prefix
0xAABBCC, final nibble 0 (so `rx_addr` becomes 0xFAABBCC0), already
resolved to RECEIVE. -/
def s5 : St :=
  { startSt memL with state := .LATCH_LONG_ADDR, rx_bit_idx := 31, rx_addr := 0x7D55DE60, last_din := false, logical := .RECEIVE }

/-- RECEIVE node about to finish the short address with no buffer available. -/
def s6 : St :=
  { startSt memOvf with state := .LATCH_SHORT_ADDR, rx_bit_idx := 7, logical := .RECEIVE }

/-- RECEIVE node about to finish the short address with slot 0 available. -/
def s6b : St :=
  { startSt memA with state := .LATCH_SHORT_ADDR, rx_bit_idx := 7, logical := .RECEIVE }

/-- The short reception one edge before completion (state `DRIVE_IDLE`);
the next falling CLKIN edge enters `BEGIN_IDLE` and dispatches `MBus_recv`. -/
def s7 : St := (run cfgA (startSt memA) traceRxShort.dropLast).1

/-- Wire bits driven from a node whose `last_clkin` is high: each bit is
an optional DIN edge followed by a falling and a rising CLKIN edge (the
opposite pairing of `bitEvs`, used after the `BEGIN_IDLE → PREARB`
back-to-back entry, which starts on a rising edge). -/
def bitEvsHi : Bool → List Bool → List EvIn
  | _, [] => []
  | cur, b :: rest =>
      (if b = cur then [] else [EvIn.din b]) ++ [EvIn.clk false, EvIn.clk true] ++ bitEvsHi b rest

/-- Unicast configuration subscribed to broadcast channel 0. -/
def cfg6 : Config := { cfgA with broadcast_channels := 1 }

/-- A single one-byte buffer slot (slot 1 disabled). -/
def mem6s : Mem :=
  { recv_buffer_lengths := [1, 0], recv_addrs := [0, 0], recv_buffers := [[0], []] }

/-- Back-to-back double transaction: a broadcast on channel 0 (address
byte 0x00) consumes the only available slot, DIN is low at the edge
leaving `BEGIN_IDLE` so the FSM goes to `PREARB` without the IDLE reset
(leaving the claimed `rx_buf` stale and, conveniently, the stale
`rx_addr` zero), and a second message addressed to `short_prefix` 3
arrives with every `recv_buffer_lengths` entry non-positive. -/
def traceStale : List EvIn :=
  rxTrace (msbBits 0x00 8) [0xA5] ++
    [.din false, .clk true, .clk false, .clk true, .clk false, .clk true, .clk false,
      .clk true] ++
    bitEvsHi false (msbBits 0x30 8)

/-- Node state right after the second message's eighth address bit of
`traceStale` (the buffer-claim block just ran with no available slot and
a stale non-NULL `rx_buf`). -/
def staleSt : St := (run cfg6 (startSt mem6s) traceStale).1

/-! General helper lemmas. -/

theorem getD_set {α : Type} (l : List α) (i j : Nat) (v d : α) :
    (l.set i v).getD j d = if i = j ∧ i < l.length then v else l.getD j d := by
  induction l generalizing i j with
  | nil => simp [List.set]
  | cons a t ih =>
      cases i with
      | zero => cases j <;> simp [List.set, List.getD]
      | succ i =>
          cases j with
          | zero => simp [List.set, List.getD]
          | succ j => simpa [List.set, List.getD, Nat.succ_lt_succ_iff] using ih i j

theorem getD_set' {α : Type} (l : List α) (i j : Nat) (v d : α) :
    ((l.set i v)[j]?).getD d = if i = j ∧ i < l.length then v else (l[j]?).getD d := by
  have h := getD_set l i j v d
  simpa [List.getD] using h

theorem lor_self_nat (n : Nat) : n ||| n = n := by
  apply Nat.eq_of_testBit_eq
  intro i
  simp [Nat.testBit_lor]

theorem lor_mod256_absorb (old x : Nat) (h : old < 256) :
    old ||| (old ||| x) % 256 = (old ||| x) % 256 := by
  have h256 : (256 : Nat) = 2 ^ 8 := rfl
  rw [h256]
  apply Nat.eq_of_testBit_eq
  intro i
  simp only [Nat.testBit_lor, Nat.testBit_mod_two_pow]
  by_cases hi : i < 8
  · simp [hi, Bool.or_assoc]
  · have hb : old.testBit i = false := by
      apply Nat.testBit_lt_two_pow
      calc old < 256 := h
        _ ≤ 2 ^ i := by
          have h8 : 8 ≤ i := by omega
          calc (256 : Nat) = 2 ^ 8 := by norm_num
            _ ≤ 2 ^ i := Nat.pow_le_pow_right (by norm_num) h8
    simp [hi, hb]

theorem callbacks_append (a b : List Ev) :
    callbacks (a ++ b) = callbacks a ++ callbacks b := List.filter_append a b

/-! Shape lemmas about the CLKIN switch body and the completion dispatch. -/

theorem clkCase_ev_shape (cfg : Config) (s : St) :
    ∀ e ∈ (clkCase cfg s).2, ∃ b, e = Ev.gpio cfg.DOUT_gpio b := by
  rcases s with ⟨st, lg, lc, ld, ldo, ic, er, tb, tl, tp, tbi, tby, ra, rbi, rby, rz, rbx, rbl, rb, ak, m⟩
  cases st <;> simp only [clkCase] <;> (repeat' split) <;> intro e he <;> simp_all

theorem clkCase_pres (cfg : Config) (s : St) :
    (clkCase cfg s).1.last_dout = s.last_dout ∧
    (clkCase cfg s).1.last_clkin = s.last_clkin ∧
    (clkCase cfg s).1.tx_buf = s.tx_buf ∧
    (clkCase cfg s).1.tx_length = s.tx_length ∧
    (clkCase cfg s).1.tx_priority = s.tx_priority := by
  rcases s with ⟨st, lg, lc, ld, ldo, ic, er, tb, tl, tp, tbi, tby, ra, rbi, rby, rz, rbx, rbl, rb, ak, m⟩
  cases st <;> simp only [clkCase, endOfAddr, claimBuf] <;> (repeat' split) <;>
    simp_all

theorem dispatch_pres (s : St) :
    (dispatch s).1.state = s.state ∧
    (dispatch s).1.error = s.error ∧
    (dispatch s).1.tx_byte_idx = s.tx_byte_idx ∧
    (dispatch s).1.rx_byte_idx = s.rx_byte_idx ∧
    (dispatch s).1.rx_buf_idx = s.rx_buf_idx ∧
    (dispatch s).1.rx_buf_len = s.rx_buf_len ∧
    (dispatch s).1.rx_buf = s.rx_buf ∧
    (dispatch s).1.last_dout = s.last_dout ∧
    (dispatch s).1.logical = s.logical ∧
    (dispatch s).1.mem.recv_buffers = s.mem.recv_buffers := by
  unfold dispatch St.writeRxLen
  (repeat' split) <;> simp_all

theorem dispatch_cb (s : St) : callbacks (dispatch s).2 = (dispatch s).2 := by
  unfold dispatch
  (repeat' split) <;> rfl

theorem callbacks_clkCase (cfg : Config) (s : St) : callbacks (clkCase cfg s).2 = [] := by
  have h := clkCase_ev_shape cfg s
  apply List.filter_eq_nil_iff.mpr
  intro e he
  obtain ⟨b, rfl⟩ := h e he
  simp [Ev.isCallback]

theorem gpioDrives_clkCase (cfg : Config) (s : St) (g : Nat) (hne : cfg.DOUT_gpio ≠ g) :
    gpioDrives g (clkCase cfg s).2 = [] := by
  have h := clkCase_ev_shape cfg s
  apply List.filterMap_eq_nil_iff.mpr
  intro e he
  obtain ⟨b, rfl⟩ := h e he
  simp [hne]

set_option maxHeartbeats 2000000 in
theorem byteAt_mono_clkCase (cfg : Config) (s : St) (j k : Nat)
    (h : s.mem.byteAt j k < 256) :
    s.mem.byteAt j k ||| (clkCase cfg s).1.mem.byteAt j k =
      (clkCase cfg s).1.mem.byteAt j k := by
  rcases s with ⟨st, lg, lc, ld, ldo, ic, er, tb, tl, tp, tbi, tby, ra, rbi, rby, rz, rbx, rbl, rb, ak, m⟩
  rcases m with ⟨lens, addrs, bufs⟩
  cases st <;>
    simp only [clkCase, endOfAddr, claimBuf] <;>
    (repeat' split) <;>
    simp_all [Mem.byteAt, lor_self_nat, getD_set, getD_set'] <;>
    (repeat' split) <;>
    (try simp_all [lor_self_nat, lor_mod256_absorb, Nat.mod_eq_of_lt, getD_set']) <;>
    (repeat' split) <;>
    (try simp_all [lor_self_nat, lor_mod256_absorb, Nat.mod_eq_of_lt])

/-! Handler-level facts. -/

theorem clk_last_dout (cfg : Config) (s : St) (v : Bool) :
    (MBus_CLKIN_int_handler cfg s v).1.last_dout = s.last_dout := by
  by_cases hdup : s.last_clkin = v
  · by_cases he : s.state = .ERROR <;> simp [MBus_CLKIN_int_handler, hdup, he]
  · simp only [MBus_CLKIN_int_handler, if_neg hdup]
    rw [(dispatch_pres _).2.2.2.2.2.2.2.1]
    exact (clkCase_pres cfg _).1

theorem din_last_dout (cfg : Config) (s : St) (v : Bool) :
    (MBus_DIN_int_handler cfg s v).1.last_dout = s.last_dout := by
  simp only [MBus_DIN_int_handler, apply_ite St.last_dout]
  split_ifs <;> simp_all

theorem send_last_dout (cfg : Config) (s : St) (b : List Nat) (l : Int) (p : Nat) :
    (MBus_send cfg s b l p).1.last_dout = s.last_dout := by
  simp only [MBus_send]
  split_ifs <;> rfl

theorem din_mem (cfg : Config) (s : St) (v : Bool) :
    (MBus_DIN_int_handler cfg s v).1.mem = s.mem := by
  simp only [MBus_DIN_int_handler, apply_ite St.mem]
  split_ifs <;> simp_all

theorem send_mem (cfg : Config) (s : St) (b : List Nat) (l : Int) (p : Nat) :
    (MBus_send cfg s b l p).1.mem = s.mem := by
  simp only [MBus_send]
  split_ifs <;> rfl

theorem clk_byte_mono (cfg : Config) (s : St) (v : Bool) (j k : Nat)
    (h : s.mem.byteAt j k < 256) :
    s.mem.byteAt j k ||| (MBus_CLKIN_int_handler cfg s v).1.mem.byteAt j k =
      (MBus_CLKIN_int_handler cfg s v).1.mem.byteAt j k := by
  by_cases hdup : s.last_clkin = v
  · by_cases he : s.state = .ERROR <;>
      simp [MBus_CLKIN_int_handler, hdup, he, lor_self_nat]
  · simp only [MBus_CLKIN_int_handler, if_neg hdup]
    have hb : (dispatch (clkCase cfg { s with last_clkin := v, interrupt_count := 0 }).1).1.mem.recv_buffers =
        (clkCase cfg { s with last_clkin := v, interrupt_count := 0 }).1.mem.recv_buffers :=
      (dispatch_pres _).2.2.2.2.2.2.2.2.2
    have hmono := byteAt_mono_clkCase cfg { s with last_clkin := v, interrupt_count := 0 } j k
      (by simpa [Mem.byteAt] using h)
    simp only [Mem.byteAt] at hmono ⊢
    rw [hb]
    simpa [Mem.byteAt] using hmono

theorem din_no_callbacks (cfg : Config) (s : St) (v : Bool) :
    callbacks (MBus_DIN_int_handler cfg s v).2 = [] := by
  unfold MBus_DIN_int_handler
  (repeat' split) <;> simp [callbacks, Ev.isCallback] <;> (repeat' split) <;>
    simp [callbacks, Ev.isCallback]

theorem clk_callbacks_dispatch (cfg : Config) (s : St) (v : Bool) :
    callbacks (MBus_CLKIN_int_handler cfg s v).2 =
      (if (MBus_CLKIN_int_handler cfg s v).1.state = .BEGIN_IDLE then
        if (MBus_CLKIN_int_handler cfg s v).1.error ≠ .NO_ERROR then
          [Ev.error (MBus_CLKIN_int_handler cfg s v).1.error]
        else if (MBus_CLKIN_int_handler cfg s v).1.tx_byte_idx > 0 then
          [Ev.send_done (MBus_CLKIN_int_handler cfg s v).1.tx_byte_idx .NO_ERROR]
        else if (MBus_CLKIN_int_handler cfg s v).1.rx_byte_idx > 0 then
          [Ev.recv (MBus_CLKIN_int_handler cfg s v).1.rx_buf_idx]
        else []
      else []) := by
  by_cases hdup : s.last_clkin = v
  · by_cases herr : s.state = .ERROR <;>
      simp [MBus_CLKIN_int_handler, hdup, herr, callbacks]
  · have hcb := callbacks_clkCase cfg { s with last_clkin := v, interrupt_count := 0 }
    have hdp := dispatch_pres (clkCase cfg { s with last_clkin := v, interrupt_count := 0 }).1
    have hdc := dispatch_cb (clkCase cfg { s with last_clkin := v, interrupt_count := 0 }).1
    simp only [MBus_CLKIN_int_handler, if_neg hdup]
    rw [callbacks_append, callbacks_append, hcb, hdc]
    obtain ⟨h1, h2, h3, h4, h5, -⟩ := hdp
    rw [h1, h2, h3, h4, h5]
    simp only [callbacks, List.filter, Ev.isCallback, List.nil_append]
    unfold dispatch
    split_ifs <;> simp_all

theorem clk_recv_len_write (cfg : Config) (s : St) (v : Bool) :
    (MBus_CLKIN_int_handler cfg s v).1.state = .BEGIN_IDLE →
    (MBus_CLKIN_int_handler cfg s v).1.error = .NO_ERROR →
    ¬ (MBus_CLKIN_int_handler cfg s v).1.tx_byte_idx > 0 →
    (MBus_CLKIN_int_handler cfg s v).1.rx_byte_idx > 0 →
    (MBus_CLKIN_int_handler cfg s v).1.rxPtrValid = true →
    (MBus_CLKIN_int_handler cfg s v).1.readRxLen =
      -(MBus_CLKIN_int_handler cfg s v).1.rx_byte_idx := by
  intro hbi herr htx hrx hptr
  by_cases hdup : s.last_clkin = v
  · by_cases he : s.state = .ERROR <;> simp [MBus_CLKIN_int_handler, hdup, he] at hbi
  · revert hbi herr htx hrx hptr
    simp only [MBus_CLKIN_int_handler, if_neg hdup]
    have hdp := dispatch_pres (clkCase cfg { s with last_clkin := v, interrupt_count := 0 }).1
    obtain ⟨h1, h2, h3, h4, -⟩ := hdp
    rw [h1, h2, h3, h4]
    intro hbi herr htx hrx hptr
    set s1 := (clkCase cfg { s with last_clkin := v, interrupt_count := 0 }).1 with hs1
    unfold dispatch at hptr ⊢
    simp only [hbi, if_pos, if_neg (by simp [herr] : ¬ s1.error ≠ MErr.NO_ERROR), if_neg htx,
      if_pos hrx] at hptr ⊢
    unfold St.writeRxLen St.readRxLen St.rxPtrValid at *
    rcases hrbl : s1.rx_buf_len with _ | i
    · simp only [hrbl] at hptr ⊢
    · simp only [hrbl] at hptr ⊢
      have hi : i < s1.mem.recv_buffer_lengths.length := by
        simpa [List.length_set] using hptr
      simp [Mem.lenAt, getD_set, hi]

/-! ERROR-state step facts. -/

theorem clk_error_step (cfg : Config) (s : St) (v : Bool) (hs : s.state = .ERROR) :
    (MBus_CLKIN_int_handler cfg s v).1.state = .ERROR ∧
      callbacks (MBus_CLKIN_int_handler cfg s v).2 = [] := by
  by_cases hdup : s.last_clkin = v
  · simp [MBus_CLKIN_int_handler, hdup, hs, callbacks]
  · simp [MBus_CLKIN_int_handler, hdup, hs, clkCase, dispatch, callbacks, Ev.isCallback]

theorem din_error_step (cfg : Config) (s : St) (v : Bool) (hs : s.state = .ERROR) :
    callbacks (MBus_DIN_int_handler cfg s v).2 = [] ∧
      ((MBus_DIN_int_handler cfg s v).1.state = .ERROR ↔
        ¬ (s.last_din ≠ v ∧
            (if v then (s.interrupt_count + 1) % 2 ^ 32 else s.interrupt_count) ≥ 3)) := by
  by_cases hdup : s.last_din = v
  · simp [MBus_DIN_int_handler, hdup, hs, callbacks]
  · constructor
    · simp [MBus_DIN_int_handler, hdup, callbacks, Ev.isCallback]
      (repeat' split) <;> simp [callbacks, Ev.isCallback]
    · simp only [MBus_DIN_int_handler, if_neg hdup]
      cases v <;> simp [hs, hdup] <;> (repeat' split) <;> simp_all [MState.code]

theorem error_run (cfg : Config) :
    ∀ (evs : List EvIn) (s : St), s.state = .ERROR → (∀ e ∈ evs, ∃ w, e = EvIn.clk w) →
      (run cfg s evs).1.state = .ERROR ∧ callbacks (run cfg s evs).2 = [] := by
  intro evs
  induction evs with
  | nil => intro s hs _; simpa [run, callbacks] using hs
  | cons e rest ih =>
      intro s hs hcl
      obtain ⟨w, rfl⟩ := hcl e (List.mem_cons_self e rest)
      have hstep := clk_error_step cfg s w hs
      have hrest := ih (MBus_CLKIN_int_handler cfg s w).1 hstep.1
        (fun e he => hcl e (List.mem_cons_of_mem _ he))
      simp [run, stepIn, callbacks_append, hstep.2, hrest.1, hrest.2]

/-! Run-level helpers. -/

theorem cycle_no_callbacks (cfg : Config) (sA sB : St)
    (hA : (MBus_CLKIN_int_handler cfg sA true).1 = sB)
    (hA2 : callbacks (MBus_CLKIN_int_handler cfg sA true).2 = [])
    (hB : (MBus_CLKIN_int_handler cfg sB false).1 = sA)
    (hB2 : callbacks (MBus_CLKIN_int_handler cfg sB false).2 = []) :
    ∀ (n : Nat) (x : St) (b : Bool), (x = sA ∧ b = true) ∨ (x = sB ∧ b = false) →
      callbacks (run cfg x (clkAlt b n)).2 = [] := by
  intro n
  induction n with
  | zero =>
      rintro x b (⟨rfl, rfl⟩ | ⟨rfl, rfl⟩) <;> simp [clkAlt, run, callbacks]
  | succ n ih =>
      rintro x b (⟨rfl, rfl⟩ | ⟨rfl, rfl⟩)
      · have h2 := ih sB false (Or.inr ⟨rfl, rfl⟩)
        simp [clkAlt, run, stepIn, callbacks_append, hA, hA2, h2]
      · have h2 := ih sA true (Or.inl ⟨rfl, rfl⟩)
        simp [clkAlt, run, stepIn, callbacks_append, hB, hB2, h2]

theorem firstAvail_some_spec (lens : List Int) (base i : Nat)
    (h : firstAvail lens base = some i) :
    ∃ k, i = base + k ∧ k < lens.length ∧ lens.getD k 0 > 0 ∧
      ∀ j, j < k → lens.getD j 0 ≤ 0 := by
  induction lens generalizing base with
  | nil => simp [firstAvail] at h
  | cons l rest ih =>
      by_cases hl : l > 0
      · refine ⟨0, ?_, by simp, by simpa [List.getD], by omega⟩
        simp [firstAvail, hl] at h
        omega
      · simp only [firstAvail, if_neg hl] at h
        obtain ⟨k, hk, hlen, hpos, hprev⟩ := ih (base + 1) h
        refine ⟨k + 1, by omega, by simp; omega, by simpa [List.getD] using hpos, ?_⟩
        intro j hj
        cases j with
        | zero => simpa [List.getD] using by omega
        | succ j => simpa [List.getD] using hprev j (by omega)

theorem firstAvail_none_spec (lens : List Int) (base : Nat)
    (h : firstAvail lens base = none) :
    ∀ j, lens.getD j 0 ≤ 0 := by
  induction lens generalizing base with
  | nil => intro j; simp [List.getD]
  | cons l rest ih =>
      intro j
      by_cases hl : l > 0
      · simp [firstAvail, hl] at h
      · simp only [firstAvail, if_neg hl] at h
        cases j with
        | zero => simpa [List.getD] using by omega
        | succ j => simpa [List.getD] using ih (base + 1) h j

theorem stepIn_cfg_eq (cfg : Config) (b : Bool) (p : Nat) (s : St) (e : EvIn) :
    stepIn { cfg with participate_in_enumeration := b, promiscuous_mode := p } s e =
      stepIn cfg s e := by
  rcases cfg with ⟨g1, g2, pe, bc, pm, sp, fp⟩
  cases e <;> rfl

theorem run_cfg_eq (cfg : Config) (b : Bool) (p : Nat) :
    ∀ (evs : List EvIn) (s : St),
      run { cfg with participate_in_enumeration := b, promiscuous_mode := p } s evs =
        run cfg s evs := by
  intro evs
  induction evs with
  | nil => intro s; rfl
  | cons e rest ih => intro s; simp [run, stepIn_cfg_eq, ih]

/-! Claim theorems. -/

set_option maxRecDepth 10000

/-- Claim C1 (code bug evidence): a non-priority `MBus_send` can never win
arbitration, because `last_dout` is written only by `MBus_init` (first
three conjuncts: no handler and no send ever changes it), so the
`!last_dout` test in the ARBITRATION case is always false.  Concretely,
after `MBus_send([0xA5], 1, 0)` from IDLE with DIN left high (no competing
sender), the arbitration-resolution edge leaves `logical = FORWARD`
instead of TRANSMIT, the node ends up forwarding for ever in the data
phase, and no callback — in particular no `MBus_send_done(1, NO_ERROR)` —
is ever delivered, however many further CLKIN edges arrive. -/
theorem C1_nonpriority_send_never_wins_arbitration :
    (∀ (cfg : Config) (s : St) (v : Bool),
        (MBus_CLKIN_int_handler cfg s v).1.last_dout = s.last_dout) ∧
    (∀ (cfg : Config) (s : St) (v : Bool),
        (MBus_DIN_int_handler cfg s v).1.last_dout = s.last_dout) ∧
    (∀ (cfg : Config) (s : St) (b : List Nat) (l : Int) (p : Nat),
        (MBus_send cfg s b l p).1.last_dout = s.last_dout) ∧
    (run cfgA (startSt memA)
        [.send [0xA5] 1 0, .clk false, .clk true, .clk false]).1.state = .PRIO_DRIVE ∧
    (run cfgA (startSt memA)
        [.send [0xA5] 1 0, .clk false, .clk true, .clk false]).1.logical = .FORWARD ∧
    callbacks (run cfgA (startSt memA) traceTx).2 = [] ∧
    txStuckSt.state = .DRIVE_DATA ∧
    txStuckSt.logical = .FORWARD ∧
    (∀ n : Nat, callbacks (run cfgA txStuckSt (clkAlt true n)).2 = []) := by
  refine ⟨clk_last_dout, din_last_dout, send_last_dout, by decide, by decide, by decide,
    by decide, by decide, ?_⟩
  intro n
  exact cycle_no_callbacks cfgA txStuckSt txStuckSt2 rfl (by decide) (by decide) (by decide)
    n txStuckSt true (Or.inl ⟨rfl, rfl⟩)

/-- Claim C2 counterexample: the ERROR state is not terminal.  After a
clock-synch error latches ERROR, six DIN edges (three of them rising, with
no CLKIN edge in between) move the FSM to PRE_BEGIN_CONTROL, contradicting
the claim that state remains ERROR under every subsequent sequence of edge
handler calls. -/
theorem C2_counterexample_din_escapes_error :
    (MBus_CLKIN_int_handler cfgA (startSt memA) true).1.state = .ERROR ∧
    (MBus_CLKIN_int_handler cfgA (startSt memA) true).1.error = .CLOCK_SYNCH_ERROR ∧
    (run cfgA (MBus_CLKIN_int_handler cfgA (startSt memA) true).1
        [.din false, .din true, .din false, .din true, .din false, .din true]).1.state =
      .PRE_BEGIN_CONTROL := by
  decide

/-- Claim C2 (amended): once the FSM is in ERROR, every CLKIN handler call
leaves it in ERROR and fires no callback; a DIN handler call fires no
callback and leaves ERROR unless it is an edge that brings
`interrupt_count` to at least 3 (three rising DIN edges since the last
CLKIN edge), in which case the state moves to PRE_BEGIN_CONTROL; in
particular ERROR persists with no callbacks under every sequence
consisting of CLKIN calls only. -/
theorem C2_amended_error_latch :
    ∀ (cfg : Config) (s : St), s.state = .ERROR →
      (∀ v : Bool,
        (MBus_CLKIN_int_handler cfg s v).1.state = .ERROR ∧
        callbacks (MBus_CLKIN_int_handler cfg s v).2 = []) ∧
      (∀ v : Bool,
        callbacks (MBus_DIN_int_handler cfg s v).2 = [] ∧
        ((MBus_DIN_int_handler cfg s v).1.state = .ERROR ↔
          ¬ (s.last_din ≠ v ∧
              (if v then (s.interrupt_count + 1) % 2 ^ 32 else s.interrupt_count) ≥ 3))) ∧
      (∀ evs : List EvIn, (∀ e ∈ evs, ∃ w, e = EvIn.clk w) →
        (run cfg s evs).1.state = .ERROR ∧ callbacks (run cfg s evs).2 = []) :=
  fun cfg s hs =>
    ⟨fun v => clk_error_step cfg s v hs,
     fun v => din_error_step cfg s v hs,
     fun evs hcl => error_run cfg evs s hs hcl⟩

/-- Claim C2 witness: the amended latching theorem applied to a concrete
latched node and a CLKIN edge. -/
theorem C2_amended_error_latch_witness :
    (MBus_CLKIN_int_handler cfgA sErr true).1.state = .ERROR ∧
      callbacks (MBus_CLKIN_int_handler cfgA sErr true).2 = [] :=
  (C2_amended_error_latch cfgA sErr (by decide)).1 true

/-- Claim C3 counterexample: `MBus_send` latches `tx_buf`, `tx_length`,
`tx_priority` before the busy check, so a busy-rejected send still
overwrites them: with a previously latched `tx_length = 5`, a rejected
send of length 7 leaves `tx_length = 7`. -/
theorem C3_counterexample_tx_fields_clobbered :
    sPre.state = .PREARB ∧
    sPre.tx_length = 5 ∧
    (MBus_send cfgA sPre [9, 9] 7 1).2 = [Ev.send_done 0 .BUS_BUSY] ∧
    (MBus_send cfgA sPre [9, 9] 7 1).1.tx_length = 7 ∧
    ((MBus_send cfgA sPre [9, 9] 7 1).1.tx_length = sPre.tx_length → False) := by
  decide

/-- Claim C3 (amended): a send while `state ≠ IDLE` performs exactly one
synchronous `MBus_send_done(0, BUS_BUSY)` and changes nothing except the
three transmit fields, which are overwritten with the call's arguments
(state, logical and every other field keep their values). -/
theorem C3_amended_busy_send :
    ∀ (cfg : Config) (s : St) (buf : List Nat) (len : Int) (prio : Nat),
      s.state ≠ .IDLE →
      MBus_send cfg s buf len prio =
        ({ s with tx_buf := buf, tx_length := len, tx_priority := prio % 2 ^ 8 },
          [Ev.send_done 0 .BUS_BUSY]) := by
  intro cfg s buf len prio h
  simp only [MBus_send]
  rw [if_neg (by simpa using h)]

/-- Claim C3 witness: the amended busy-send theorem at a concrete
mid-transaction state. -/
theorem C3_amended_busy_send_witness :
    MBus_send cfgA sPre [1] 7 1 =
      ({ sPre with tx_buf := [1], tx_length := 7, tx_priority := 1 % 2 ^ 8 },
        [Ev.send_done 0 .BUS_BUSY]) :=
  C3_amended_busy_send cfgA sPre [1] 7 1 (by decide)

/-- Claim C4 (code bug evidence): the short-address comparison
`rx_addr == mbus->short_prefix` uses the full 8-bit `short_prefix` value,
not its low nibble, although libmbus.h documents that only the bottom four
bits are significant.  General part: for a fourth address bit with the
accumulated nibble `a` not 0xF and not 0, the handler sets
`logical = RECEIVE` exactly when `a` equals the whole configured value.
Concrete part: with `short_prefix = 0x13` (low nibble 3) the address
nibble 3 is forwarded, while the same wire bits with `short_prefix = 0x03`
are received — so the high nibble does affect matching. -/
theorem C4_short_prefix_matched_as_full_byte :
    (∀ (cfg : Config) (s : St) (v : Bool),
        s.state = .LATCH_SHORT_ADDR → s.rx_bit_idx = 3 → s.last_clkin ≠ v →
        nextAddr s.rx_addr s.last_din ≠ 0xf → nextAddr s.rx_addr s.last_din ≠ 0 →
        (MBus_CLKIN_int_handler cfg s v).1.logical =
          (if nextAddr s.rx_addr s.last_din = cfg.short_pfx then .RECEIVE else .FORWARD)) ∧
    cfgHi.short_pfx = 0x13 ∧
    cfgHi.short_pfx % 16 = cfgA.short_pfx ∧
    (run cfgHi (startSt memA)
        (setupEvs ++ bitEvs true [false, false, true, true])).1.logical = .FORWARD ∧
    (run cfgA (startSt memA)
        (setupEvs ++ bitEvs true [false, false, true, true])).1.logical = .RECEIVE := by
  refine ⟨?_, by decide, by decide, by decide, by decide⟩
  intro cfg s v hs hbit hdup hf h0
  simp only [MBus_CLKIN_int_handler, if_neg hdup]
  simp only [clkCase, hs, hbit]
  norm_num
  split_ifs <;> simp_all [dispatch]

/-- Claim C4 witness: the general conjunct applied at a concrete state
(nibble 3 against configured 0x13). -/
theorem C4_short_prefix_matched_as_full_byte_witness :
    (MBus_CLKIN_int_handler cfgHi s4 false).1.logical =
      (if nextAddr s4.rx_addr s4.last_din = cfgHi.short_pfx then .RECEIVE else .FORWARD) :=
  C4_short_prefix_matched_as_full_byte.1 cfgHi s4 false (by decide) (by decide) (by decide)
    (by decide) (by decide)

/-- Claim C5 counterexample: a complete long-address reception with
`full_prefix = 0x00AABBCC` (escape 0xF, final nibble 0) is delivered to
slot 0 with the payload intact, but `recv_addrs[0]` holds the full
accumulated 32-bit wire address 0xFAABBCC0, not the right-aligned
0x00AABBCC the claim states. -/
theorem C5_counterexample_stored_long_addr :
    callbacks (run cfgA (startSt memL) traceRxLong).2 = [Ev.recv 0] ∧
    (run cfgA (startSt memL) traceRxLong).1.mem.recv_buffers.getD 0 [] = [0x55, 0] ∧
    (run cfgA (startSt memL) traceRxLong).1.mem.recv_addrs.getD 0 0 = 0xFAABBCC0 ∧
    ((0xFAABBCC0 : Nat) = 0x00AABBCC → False) := by
  decide

/-- Claim C5 (amended): when the 32nd long-address bit is latched by a
node already resolved to RECEIVE and slot `i` is the first available
buffer, `recv_addrs[i]` records the entire accumulated 32-bit address —
escape nibble in bits 31..28, the 24 prefix bits in bits 27..4 and the
final nibble in bits 3..0 — and the node moves to DRIVE_DATA holding
slot `i`. -/
theorem C5_amended_long_addr_record :
    ∀ (cfg : Config) (s : St) (v : Bool) (i : Nat),
      s.state = .LATCH_LONG_ADDR → s.rx_bit_idx = 31 → s.last_clkin ≠ v →
      s.logical = .RECEIVE → s.mem.findSlot = some i →
      (MBus_CLKIN_int_handler cfg s v).1.mem.recv_addrs =
          s.mem.recv_addrs.set i (nextAddr s.rx_addr s.last_din) ∧
      (MBus_CLKIN_int_handler cfg s v).1.state = .DRIVE_DATA ∧
      (MBus_CLKIN_int_handler cfg s v).1.rx_buf = some i ∧
      (MBus_CLKIN_int_handler cfg s v).1.rx_buf_idx = i := by
  intro cfg s v i hs hbit hdup hlog hslot
  simp only [MBus_CLKIN_int_handler, if_neg hdup]
  simp only [clkCase, hs, hbit, endOfAddr, claimBuf, hlog]
  norm_num
  simp [hslot, dispatch, nextAddr]

/-- Claim C5 witness: the amended record theorem at the concrete 32nd-bit
state for prefix 0xAABBCC. -/
theorem C5_amended_long_addr_record_witness :
    (MBus_CLKIN_int_handler cfgA s5 false).1.mem.recv_addrs =
        s5.mem.recv_addrs.set 0 (nextAddr s5.rx_addr s5.last_din) ∧
    (MBus_CLKIN_int_handler cfgA s5 false).1.state = .DRIVE_DATA ∧
    (MBus_CLKIN_int_handler cfgA s5 false).1.rx_buf = some 0 ∧
    (MBus_CLKIN_int_handler cfgA s5 false).1.rx_buf_idx = 0 :=
  C5_amended_long_addr_record cfgA s5 false 0 (by decide) (by decide) (by decide)
    (by decide) (by decide)

/-- Claim C6 (code bug evidence): the overflow guard at the end of the
address phase is `if (rx_buf == NULL)`, not "the scan found no slot".
On the fresh path (`rx_buf` still NULL, as after the IDLE reset) the
claim holds: a receiving node claims the first slot in index order with
positive length (scan specification conjuncts), and with no slot
available it moves to REQUEST_INTERRUPT with error RECV_OVERFLOW leaving
client memory untouched; the concrete overflow transaction ends in
BEGIN_IDLE delivering exactly `MBus_error(RECV_OVERFLOW)` with every
buffer, length and address slot unchanged.  But on the reachable
back-to-back path of `traceStale` — the `BEGIN_IDLE → PREARB` transition
skips the IDLE reset, so the previous transaction's claimed `rx_buf`
survives — an addressed message finding every length non-positive skips
REQUEST_INTERRUPT entirely: the node ends the address phase in DRIVE_DATA
as RECEIVE with no error and with `rx_buf_idx = RX_BUFFER_COUNT`, the
index of the out-of-bounds `recv_addrs` write the C code performs there
(undefined behaviour; a no-op in the list model). -/
theorem C6_recv_overflow_no_buffer :
    (∀ (cfg : Config) (s : St) (v : Bool),
      s.state = .LATCH_SHORT_ADDR → s.rx_bit_idx = 7 → s.last_clkin ≠ v →
      s.logical = .RECEIVE →
      ((s.mem.findSlot = none → s.rx_buf = none →
          (MBus_CLKIN_int_handler cfg s v).1.state = .REQUEST_INTERRUPT ∧
          (MBus_CLKIN_int_handler cfg s v).1.error = .RECV_OVERFLOW ∧
          (MBus_CLKIN_int_handler cfg s v).1.mem = s.mem) ∧
       (∀ i, s.mem.findSlot = some i →
          (MBus_CLKIN_int_handler cfg s v).1.rx_buf_idx = i ∧
          (MBus_CLKIN_int_handler cfg s v).1.rx_buf = some i ∧
          (MBus_CLKIN_int_handler cfg s v).1.rx_buf_len = .slot i ∧
          (MBus_CLKIN_int_handler cfg s v).1.mem.recv_buffer_lengths =
            s.mem.recv_buffer_lengths ∧
          (MBus_CLKIN_int_handler cfg s v).1.mem.recv_buffers = s.mem.recv_buffers ∧
          (MBus_CLKIN_int_handler cfg s v).1.mem.recv_addrs =
            s.mem.recv_addrs.set i
              ((nextAddr s.rx_addr s.last_din <<< 24) % 2 ^ 32)))) ∧
    (∀ (lens : List Int) (i : Nat), firstAvail lens 0 = some i →
        i < lens.length ∧ lens.getD i 0 > 0 ∧ ∀ j, j < i → lens.getD j 0 ≤ 0) ∧
    (∀ lens : List Int, firstAvail lens 0 = none → ∀ j, lens.getD j 0 ≤ 0) ∧
    (run cfgA (startSt memOvf) traceOvf).1.state = .BEGIN_IDLE ∧
    callbacks (run cfgA (startSt memOvf) traceOvf).2 = [Ev.error .RECV_OVERFLOW] ∧
    (run cfgA (startSt memOvf) traceOvf).1.mem = memOvf ∧
    (staleSt.mem.recv_buffer_lengths = [-1, 0] ∧
      Mem.findSlot staleSt.mem = none ∧
      staleSt.rx_buf = some 0 ∧
      staleSt.state = .DRIVE_DATA ∧
      staleSt.logical = .RECEIVE ∧
      staleSt.error = .NO_ERROR ∧
      staleSt.rx_buf_idx = 2) := by
  refine ⟨?_, ?_, ?_, by decide, by decide, by decide, by decide⟩
  · intro cfg s v hs hbit hdup hlog
    constructor
    · intro hnone hbuf
      simp only [MBus_CLKIN_int_handler, if_neg hdup]
      simp only [clkCase, hs, hbit, endOfAddr, claimBuf, hlog]
      norm_num
      simp [hnone, hbuf, dispatch]
    · intro i hsome
      simp only [MBus_CLKIN_int_handler, if_neg hdup]
      simp only [clkCase, hs, hbit, endOfAddr, claimBuf, hlog]
      norm_num
      simp [hsome, dispatch, nextAddr]
  · intro lens i h
    obtain ⟨k, hk, hlen, hpos, hprev⟩ := firstAvail_some_spec lens 0 i h
    have hki : k = i := by omega
    subst hki
    exact ⟨hlen, hpos, hprev⟩
  · intro lens h
    exact firstAvail_none_spec lens 0 h

/-- Claim C6 witness: the general conjunct at a concrete fresh no-slot
state and a concrete first-slot state. -/
theorem C6_recv_overflow_no_buffer_witness :
    ((MBus_CLKIN_int_handler cfgA s6 false).1.state = .REQUEST_INTERRUPT ∧
      (MBus_CLKIN_int_handler cfgA s6 false).1.error = .RECV_OVERFLOW ∧
      (MBus_CLKIN_int_handler cfgA s6 false).1.mem = s6.mem) ∧
    ((MBus_CLKIN_int_handler cfgA s6b false).1.rx_buf_idx = 0 ∧
      (MBus_CLKIN_int_handler cfgA s6b false).1.rx_buf = some 0 ∧
      (MBus_CLKIN_int_handler cfgA s6b false).1.rx_buf_len = .slot 0 ∧
      (MBus_CLKIN_int_handler cfgA s6b false).1.mem.recv_buffer_lengths =
        s6b.mem.recv_buffer_lengths ∧
      (MBus_CLKIN_int_handler cfgA s6b false).1.mem.recv_buffers = s6b.mem.recv_buffers ∧
      (MBus_CLKIN_int_handler cfgA s6b false).1.mem.recv_addrs =
        s6b.mem.recv_addrs.set 0
          ((nextAddr s6b.rx_addr s6b.last_din <<< 24) % 2 ^ 32)) :=
  ⟨(C6_recv_overflow_no_buffer.1 cfgA s6 false (by decide) (by decide) (by decide)
      (by decide)).1 (by decide) (by decide),
   (C6_recv_overflow_no_buffer.1 cfgA s6b false (by decide) (by decide) (by decide)
      (by decide)).2 0 (by decide)⟩

/-- Claim C7: the callbacks of every CLKIN handler call are exactly the
BEGIN_IDLE dispatch choice — `MBus_error` when the error is set, else
`MBus_send_done(tx_byte_idx, NO_ERROR)` when bytes were transmitted, else
`MBus_recv(rx_buf_idx)` when bytes were received (with `*rx_buf_len`
updated to the negated byte count in the same step), else nothing — and
the empty list whenever the post-state is not BEGIN_IDLE; the DIN handler
never fires a callback.  Hence at most one completion callback is
delivered per call, and only on the unique edge entering BEGIN_IDLE. -/
theorem C7_begin_idle_single_callback :
    (∀ (cfg : Config) (s : St) (v : Bool),
      callbacks (MBus_CLKIN_int_handler cfg s v).2 =
        (if (MBus_CLKIN_int_handler cfg s v).1.state = .BEGIN_IDLE then
          if (MBus_CLKIN_int_handler cfg s v).1.error ≠ .NO_ERROR then
            [Ev.error (MBus_CLKIN_int_handler cfg s v).1.error]
          else if (MBus_CLKIN_int_handler cfg s v).1.tx_byte_idx > 0 then
            [Ev.send_done (MBus_CLKIN_int_handler cfg s v).1.tx_byte_idx .NO_ERROR]
          else if (MBus_CLKIN_int_handler cfg s v).1.rx_byte_idx > 0 then
            [Ev.recv (MBus_CLKIN_int_handler cfg s v).1.rx_buf_idx]
          else []
        else [])) ∧
    (∀ (cfg : Config) (s : St) (v : Bool),
      (MBus_CLKIN_int_handler cfg s v).1.state = .BEGIN_IDLE →
      (MBus_CLKIN_int_handler cfg s v).1.error = .NO_ERROR →
      ¬ (MBus_CLKIN_int_handler cfg s v).1.tx_byte_idx > 0 →
      (MBus_CLKIN_int_handler cfg s v).1.rx_byte_idx > 0 →
      (MBus_CLKIN_int_handler cfg s v).1.rxPtrValid = true →
      (MBus_CLKIN_int_handler cfg s v).1.readRxLen =
        -(MBus_CLKIN_int_handler cfg s v).1.rx_byte_idx) ∧
    (∀ (cfg : Config) (s : St) (v : Bool),
      callbacks (MBus_DIN_int_handler cfg s v).2 = []) :=
  ⟨clk_callbacks_dispatch, clk_recv_len_write, din_no_callbacks⟩

/-- Claim C7 witness: the length-write conjunct at the concrete edge that
completes the short reception scenario. -/
theorem C7_begin_idle_single_callback_witness :
    (MBus_CLKIN_int_handler cfgA s7 false).1.readRxLen =
      -(MBus_CLKIN_int_handler cfgA s7 false).1.rx_byte_idx :=
  C7_begin_idle_single_callback.2.1 cfgA s7 false (by decide) (by decide) (by decide)
    (by decide) (by decide)

/-- Claim C8 counterexample: a CLKIN call that detects a clock-synch error
returns before the CLKOUT policy block, so it drives nothing at all — the
resulting state ERROR is not an interrupt-request state, yet CLKOUT is not
driven to `last_clkin` (no `set_gpio_val` call happens). -/
theorem C8_counterexample_synch_error_no_drive :
    (MBus_CLKIN_int_handler cfgA (startSt memA) true).2 = [] ∧
    (MBus_CLKIN_int_handler cfgA (startSt memA) true).1.state = .ERROR ∧
    stretching .ERROR = false := by
  decide

/-- Claim C8 (amended): every CLKIN handler call that observes a proper
edge (`CLKIN_val ≠ last_clkin`) drives CLKOUT exactly once, high when the
resulting state is REQUEST_INTERRUPT, REQUESTING_INTERRUPT or
REQUESTED_INTERRUPT and to the new `last_clkin` (the edge value) in every
other state; a call with a duplicated level returns without driving any
gpio.  (The CLKOUT and DOUT gpio indices are assumed distinct so the
drives can be told apart.) -/
theorem C8_amended_clkout_policy :
    ∀ (cfg : Config) (s : St) (v : Bool), cfg.DOUT_gpio ≠ cfg.CLKOUT_gpio →
      (s.last_clkin ≠ v →
        gpioDrives cfg.CLKOUT_gpio (MBus_CLKIN_int_handler cfg s v).2 =
          [if stretching (MBus_CLKIN_int_handler cfg s v).1.state then true else v]) ∧
      (s.last_clkin = v → (MBus_CLKIN_int_handler cfg s v).2 = []) := by
  intro cfg s v hne
  constructor
  · intro hdup
    have hg := gpioDrives_clkCase cfg { s with last_clkin := v, interrupt_count := 0 }
      cfg.CLKOUT_gpio hne
    have hdp := dispatch_pres (clkCase cfg { s with last_clkin := v, interrupt_count := 0 }).1
    simp only [MBus_CLKIN_int_handler, if_neg (by simpa using hdup)]
    rw [← hdp.1]
    simp only [gpioDrives, List.filterMap_append, hg]
    simp only [gpioDrives] at hg
    rw [hg]
    have hd : List.filterMap
        (fun e => match e with
          | Ev.gpio i v => if i = cfg.CLKOUT_gpio then some v else none
          | _ => none)
        (dispatch (clkCase cfg { s with last_clkin := v, interrupt_count := 0 }).1).2 = [] := by
      apply List.filterMap_eq_nil_iff.mpr
      intro e he
      unfold dispatch at he
      revert he
      (repeat' split) <;> intro he <;> simp_all
    rw [hd]
    simp
  · intro hdup
    by_cases he : s.state = .ERROR <;> simp [MBus_CLKIN_int_handler, hdup, he]

/-- Claim C8 witness: the amended policy at a fresh node observing a
falling edge. -/
theorem C8_amended_clkout_policy_witness :
    gpioDrives cfgA.CLKOUT_gpio (MBus_CLKIN_int_handler cfgA (startSt memA) false).2 =
      [if stretching (MBus_CLKIN_int_handler cfgA (startSt memA) false).1.state then true
       else false] :=
  (C8_amended_clkout_policy cfgA (startSt memA) false (by decide)).1 (by decide)

/-- Claim C9: `participate_in_enumeration` and `promiscuous_mode` are
never consulted: changing only those two fields leaves every step of the
state machine — resulting state, client-memory writes, gpio drives and
callbacks — literally identical, for single stimuli and for whole runs
(`MBus_init` does not read the configuration at all). -/
theorem C9_enumeration_promiscuous_irrelevant :
    ∀ (cfg : Config) (b : Bool) (p : Nat) (s : St) (e : EvIn) (evs : List EvIn),
      stepIn { cfg with participate_in_enumeration := b, promiscuous_mode := p } s e =
        stepIn cfg s e ∧
      run { cfg with participate_in_enumeration := b, promiscuous_mode := p } s evs =
        run cfg s evs :=
  fun cfg b p s e evs => ⟨stepIn_cfg_eq cfg b p s e, run_cfg_eq cfg b p evs s⟩

/-- Claim C10: receive buffers only accumulate bits by OR — every CLKIN
step maps each buffer byte `b` (for well-formed byte values `b < 256`) to
a value `b'` with `b ||| b' = b'`, and the DIN handler and `MBus_send`
never touch client memory at all; consequently a received byte equals its
claim-time value OR-ed with the payload byte (concrete run: buffer byte
0x0F receiving 0xA5 ends as 0xAF = 0x0F ||| 0xA5) and equals the payload
exactly when the buffer was zeroed beforehand (second run: 0x00 gives
0xA5). -/
theorem C10_receive_bytes_or_monotone :
    (∀ (cfg : Config) (s : St) (v : Bool) (j k : Nat),
        s.mem.byteAt j k < 256 →
        s.mem.byteAt j k ||| (MBus_CLKIN_int_handler cfg s v).1.mem.byteAt j k =
          (MBus_CLKIN_int_handler cfg s v).1.mem.byteAt j k) ∧
    (∀ (cfg : Config) (s : St) (v : Bool), (MBus_DIN_int_handler cfg s v).1.mem = s.mem) ∧
    (∀ (cfg : Config) (s : St) (b : List Nat) (l : Int) (p : Nat),
        (MBus_send cfg s b l p).1.mem = s.mem) ∧
    (run cfgA (startSt memA) traceRxShort).1.mem.recv_buffers.getD 0 [] = [0x0F ||| 0xA5] ∧
    (run cfgA (startSt memZ) traceRxShort).1.mem.recv_buffers.getD 0 [] = [0xA5] ∧
    callbacks (run cfgA (startSt memA) traceRxShort).2 = [Ev.recv 0] :=
  ⟨clk_byte_mono, din_mem, send_mem, by decide, by decide, by decide⟩

/-- Claim C10 witness: the OR-monotonicity conjunct at a concrete state
whose first buffer byte is 0x0F. -/
theorem C10_receive_bytes_or_monotone_witness :
    (startSt memA).mem.byteAt 0 0 |||
        (MBus_CLKIN_int_handler cfgA (startSt memA) false).1.mem.byteAt 0 0 =
      (MBus_CLKIN_int_handler cfgA (startSt memA) false).1.mem.byteAt 0 0 :=
  C10_receive_bytes_or_monotone.1 cfgA (startSt memA) false 0 0 (by decide)

end LibMBus
